import Mathlib

/-!
Shallow embedding of the `typescript2` interpreter (`src/src/main.rs` together
with the AST of `src/src/ast.rs`), and verification of the specification's
claims about it.  The `src/grammar/mod.rs` file is an abandoned duplicated
draft that is not compiled into the crate (`main.rs` declares only `mod ast`
and the lalrpop module); `main.rs` is the authority.

Modelling conventions:
* the `Number` union is always written and read under the same tag in the
  source, so `Value` is embedded as a sum type, one variant per kind;
* unsigned payloads are `Nat`, signed payloads are `Int`, integer arithmetic
  wraps into the width (machine arithmetic, as the spec's section 4.1
  prescribes for the unguarded source operators), and integer division panics
  exactly where Rust's does (zero divisor, or the lone signed overflow case);
* float payloads are idealized as exact rationals (`Rat`): exact wherever
  IEEE-754 arithmetic is exact, which covers every float value the claims
  exercise; rounding, infinities and NaN are outside the idealization;
* every Rust panic of the evaluator is made explicit as an `Err` result that
  carries the state at the panic site, so that aborted evaluations keep their
  observable output.
-/

/-- The ten numeric kind tags (`enum NumType` in `main.rs`). -/
inductive NumType
  | U8 | I8 | U16 | I16 | U32 | I32 | U64 | I64 | F32 | F64
deriving DecidableEq

/-- A typed numeric value (`struct Value` in `main.rs`): kind tag plus the
payload of the matching width and signedness, embedded as a sum type. -/
inductive Value
  | u8 (v : Nat)
  | i8 (v : Int)
  | u16 (v : Nat)
  | i16 (v : Int)
  | u32 (v : Nat)
  | i32 (v : Int)
  | u64 (v : Nat)
  | i64 (v : Int)
  | f32 (v : Rat)
  | f64 (v : Rat)
deriving DecidableEq

/-- The kind tag of a value (the `t` field of `struct Value`). -/
def Value.numType : Value → NumType
  | .u8 _ => .U8
  | .i8 _ => .I8
  | .u16 _ => .U16
  | .i16 _ => .I16
  | .u32 _ => .U32
  | .i32 _ => .I32
  | .u64 _ => .U64
  | .i64 _ => .I64
  | .f32 _ => .F32
  | .f64 _ => .F64

/-- The panic conditions of the evaluator, one per panic site in `main.rs`:
`typeMismatch` is the `self.t != rhs.t` panic shared by the five arithmetic
impls; `divByZero` and `divOverflow` are the Rust integer-division panics
inside `impl Div`; `undefinedVariable` is `self.vars.get(&id).unwrap()` on
`None`; `assignUnbound` is `self.vars.insert(id, *v).unwrap()` on `None` in
the `Expr::Eq` arm (a fresh name was inserted, so there was no previous value
to unwrap); `stackUnderflow` is any `pop().unwrap()` or `last().unwrap()` on
an empty evaluation stack. -/
inductive Err
  | typeMismatch (a b : NumType)
  | divByZero
  | divOverflow
  | undefinedVariable (name : String)
  | assignUnbound (name : String)
  | stackUnderflow
deriving DecidableEq

/-- Wrap an integer into the unsigned `w`-bit range: the machine (release-mode
Rust) behaviour of the unguarded `+`, `-`, `*` of the source. -/
def wrapU (w : Nat) (x : Int) : Nat := (x % (2 ^ w : Int)).toNat

/-- Wrap an integer into the signed two's-complement `w`-bit range. -/
def wrapS (w : Nat) (x : Int) : Int := (x + 2 ^ (w - 1)) % (2 ^ w : Int) - 2 ^ (w - 1)

/-- Truncation toward zero of a rational: the rounding direction of Rust's
float-to-integer `as` cast. -/
def qtrunc (q : Rat) : Int := q.num.tdiv (q.den : Int)

/-- Rust `f64 as` cast to an unsigned `w`-bit integer: truncate toward zero,
saturating at the type's bounds. -/
def castToU (w : Nat) (q : Rat) : Nat :=
  if q < 0 then 0 else min (qtrunc q).toNat (2 ^ w - 1)

/-- Rust `f64 as` cast to a signed `w`-bit integer: truncate toward zero,
saturating at the type's bounds. -/
def castToS (w : Nat) (q : Rat) : Int :=
  max (-(2 ^ (w - 1))) (min (qtrunc q) (2 ^ (w - 1) - 1))

/-- Idealization of `f64::powf` on exact rationals: exact for integer
exponents; a non-integer exponent has an irrational real power with no
rational image and is mapped to `0`.  No settled claim depends on the value
of this function, only on its totality and the kind discipline around it. -/
def powfQ (a b : Rat) : Rat :=
  if b.den = 1 then
    if 0 ≤ b.num then a ^ b.num.toNat
    else (a ^ (-b.num).toNat)⁻¹
  else 0

/-- `impl Add for Value` (`main.rs` 85-156): panic (`typeMismatch`) when the
tags differ, otherwise machine addition at the common width; the result keeps
the common tag. -/
def Value.add : Value → Value → Except Err Value
  | .u8 a, .u8 b => .ok (.u8 (wrapU 8 (a + b)))
  | .i8 a, .i8 b => .ok (.i8 (wrapS 8 (a + b)))
  | .u16 a, .u16 b => .ok (.u16 (wrapU 16 (a + b)))
  | .i16 a, .i16 b => .ok (.i16 (wrapS 16 (a + b)))
  | .u32 a, .u32 b => .ok (.u32 (wrapU 32 (a + b)))
  | .i32 a, .i32 b => .ok (.i32 (wrapS 32 (a + b)))
  | .u64 a, .u64 b => .ok (.u64 (wrapU 64 (a + b)))
  | .i64 a, .i64 b => .ok (.i64 (wrapS 64 (a + b)))
  | .f32 a, .f32 b => .ok (.f32 (a + b))
  | .f64 a, .f64 b => .ok (.f64 (a + b))
  | a, b => .error (.typeMismatch a.numType b.numType)

/-- `impl Sub for Value` (`main.rs` 157-228). -/
def Value.sub : Value → Value → Except Err Value
  | .u8 a, .u8 b => .ok (.u8 (wrapU 8 ((a : Int) - b)))
  | .i8 a, .i8 b => .ok (.i8 (wrapS 8 (a - b)))
  | .u16 a, .u16 b => .ok (.u16 (wrapU 16 ((a : Int) - b)))
  | .i16 a, .i16 b => .ok (.i16 (wrapS 16 (a - b)))
  | .u32 a, .u32 b => .ok (.u32 (wrapU 32 ((a : Int) - b)))
  | .i32 a, .i32 b => .ok (.i32 (wrapS 32 (a - b)))
  | .u64 a, .u64 b => .ok (.u64 (wrapU 64 ((a : Int) - b)))
  | .i64 a, .i64 b => .ok (.i64 (wrapS 64 (a - b)))
  | .f32 a, .f32 b => .ok (.f32 (a - b))
  | .f64 a, .f64 b => .ok (.f64 (a - b))
  | a, b => .error (.typeMismatch a.numType b.numType)

/-- `impl Mul for Value` (`main.rs` 229-300). -/
def Value.mul : Value → Value → Except Err Value
  | .u8 a, .u8 b => .ok (.u8 (wrapU 8 (a * b)))
  | .i8 a, .i8 b => .ok (.i8 (wrapS 8 (a * b)))
  | .u16 a, .u16 b => .ok (.u16 (wrapU 16 (a * b)))
  | .i16 a, .i16 b => .ok (.i16 (wrapS 16 (a * b)))
  | .u32 a, .u32 b => .ok (.u32 (wrapU 32 (a * b)))
  | .i32 a, .i32 b => .ok (.i32 (wrapS 32 (a * b)))
  | .u64 a, .u64 b => .ok (.u64 (wrapU 64 (a * b)))
  | .i64 a, .i64 b => .ok (.i64 (wrapS 64 (a * b)))
  | .f32 a, .f32 b => .ok (.f32 (a * b))
  | .f64 a, .f64 b => .ok (.f64 (a * b))
  | a, b => .error (.typeMismatch a.numType b.numType)

/-- `impl Div for Value` (`main.rs` 301-372): for integer kinds, the native
Rust `/` panics on a zero divisor and on the one signed overflow case
(`MIN / -1`), and otherwise truncates toward zero; float division is the
host's real division (idealized exactly on rationals). -/
def Value.div : Value → Value → Except Err Value
  | .u8 a, .u8 b => if b = 0 then .error .divByZero else .ok (.u8 (a / b))
  | .i8 a, .i8 b =>
    if b = 0 then .error .divByZero
    else if a = -(2 ^ 7) ∧ b = -1 then .error .divOverflow
    else .ok (.i8 (a.tdiv b))
  | .u16 a, .u16 b => if b = 0 then .error .divByZero else .ok (.u16 (a / b))
  | .i16 a, .i16 b =>
    if b = 0 then .error .divByZero
    else if a = -(2 ^ 15) ∧ b = -1 then .error .divOverflow
    else .ok (.i16 (a.tdiv b))
  | .u32 a, .u32 b => if b = 0 then .error .divByZero else .ok (.u32 (a / b))
  | .i32 a, .i32 b =>
    if b = 0 then .error .divByZero
    else if a = -(2 ^ 31) ∧ b = -1 then .error .divOverflow
    else .ok (.i32 (a.tdiv b))
  | .u64 a, .u64 b => if b = 0 then .error .divByZero else .ok (.u64 (a / b))
  | .i64 a, .i64 b =>
    if b = 0 then .error .divByZero
    else if a = -(2 ^ 63) ∧ b = -1 then .error .divOverflow
    else .ok (.i64 (a.tdiv b))
  | .f32 a, .f32 b => .ok (.f32 (a / b))
  | .f64 a, .f64 b => .ok (.f64 (a / b))
  | a, b => .error (.typeMismatch a.numType b.numType)

/-- `Value::powf` (`main.rs` 373-442): promote both payloads to `f64`, apply
real-valued exponentiation, cast back to the original kind (a truncating,
saturating `as` cast for the integer kinds). -/
def Value.powf : Value → Value → Except Err Value
  | .u8 a, .u8 b => .ok (.u8 (castToU 8 (powfQ a b)))
  | .i8 a, .i8 b => .ok (.i8 (castToS 8 (powfQ a b)))
  | .u16 a, .u16 b => .ok (.u16 (castToU 16 (powfQ a b)))
  | .i16 a, .i16 b => .ok (.i16 (castToS 16 (powfQ a b)))
  | .u32 a, .u32 b => .ok (.u32 (castToU 32 (powfQ a b)))
  | .i32 a, .i32 b => .ok (.i32 (castToS 32 (powfQ a b)))
  | .u64 a, .u64 b => .ok (.u64 (castToU 64 (powfQ a b)))
  | .i64 a, .i64 b => .ok (.i64 (castToS 64 (powfQ a b)))
  | .f32 a, .f32 b => .ok (.f32 (powfQ a b))
  | .f64 a, .f64 b => .ok (.f64 (powfQ a b))
  | a, b => .error (.typeMismatch a.numType b.numType)

/-- Display of a rational float payload: integral values print with no
fractional part, matching Rust's float `Display` on the integral values the
claims exercise (non-integral rendering is idealized). -/
def ratDisplay (q : Rat) : String := if q.den = 1 then toString q.num else toString q

/-- `impl Display for Value` (`main.rs` 69-84): render the payload under its
own tag. -/
def Value.display : Value → String
  | .u8 a => toString a
  | .i8 a => toString a
  | .u16 a => toString a
  | .i16 a => toString a
  | .u32 a => toString a
  | .i32 a => toString a
  | .u64 a => toString a
  | .i64 a => toString a
  | .f32 q => ratDisplay q
  | .f64 q => ratDisplay q

/-- Lookup in the variable environment (`HashMap::get`), embedded over an
association list. -/
def lookupVar : List (String × Value) → String → Option Value
  | [], _ => none
  | (k', v') :: rest, k => if k' = k then some v' else lookupVar rest k

/-- Insert-or-overwrite in the variable environment; yields the replaced
previous value exactly as Rust's `HashMap::insert` does, together with the
updated map. -/
def insertVar : List (String × Value) → String → Value → Option Value × List (String × Value)
  | [], k, v => (none, [(k, v)])
  | (k', v') :: rest, k, v =>
    if k' = k then (some v', (k, v) :: rest)
    else ((insertVar rest k v).1, (k', v') :: (insertVar rest k v).2)

/-- `Expr` (`src/src/ast.rs`): `Number` holds the `f64` literal, idealized as
a rational. -/
inductive Expr
  | Number (n : Rat)
  | Id (id : String)
  | PI
  | E
  | Parenthesis (e : Expr)
  | Exponent (l r : Expr)
  | Multiply (l r : Expr)
  | Divide (l r : Expr)
  | Add (l r : Expr)
  | Sub (l r : Expr)
  | Eq (id : String) (e : Expr)
deriving DecidableEq

/-- `Statement` (`src/src/ast.rs`). -/
inductive Statement
  | ExprStatement (e : Expr)
  | Let (id t : String) (e : Expr)
  | Print (e : Expr)
deriving DecidableEq

/-- The exact rational value of the IEEE-754 double constant
`f64::consts::PI`. -/
def pi64 : Rat := (884279719003555 : Rat) / 281474976710656

/-- The exact rational value of the IEEE-754 double constant
`f64::consts::E`. -/
def e64 : Rat := (6121026514868073 : Rat) / 2251799813685248

/-- Evaluator state (`struct TS2G`): the variable map, the evaluation stack
(top of stack at the head of the list, matching `Vec` push/pop/last at the
end), and the ordered lines written to the output sink by `print`.  The
source's two unit fields carry no state and are omitted. -/
structure TS2G where
  vars : List (String × Value)
  stack : List Value
  output : List String
deriving DecidableEq

/-- `TS2G::init` (`main.rs` 451-458). -/
def TS2G.init : TS2G := ⟨[], [], []⟩

/-- Panic-propagating sequencing: a Rust panic aborts the rest of the
computation, leaving the state exactly as it was at the panic site. -/
def andThen (r : TS2G × Option Err) (f : TS2G → TS2G × Option Err) : TS2G × Option Err :=
  match r with
  | (g, none) => f g
  | (g, some e) => (g, some e)

/-- The common body of the five binary-operator arms of `visit_expr`: pop the
right operand, pop the left operand (each pop an `unwrap()` that panics on an
empty stack), apply the operator and push the result (an operator panic
happens after both pops). -/
def binOpArm (g : TS2G) (op : Value → Value → Except Err Value) : TS2G × Option Err :=
  match g.stack with
  | [] => (g, some .stackUnderflow)
  | rv :: s1 =>
    match s1 with
    | [] => ({ g with stack := s1 }, some .stackUnderflow)
    | lv :: s2 =>
      match op lv rv with
      | .ok v => ({ g with stack := v :: s2 }, none)
      | .error e => ({ g with stack := s2 }, some e)

/-- `TS2G::visit_expr` (`main.rs` 477-546), with the Rust panics made explicit
as `some err` results carrying the state at the panic site.  The `Eq`
(assignment) arm reproduces the source exactly: the evaluated value is peeked
with `last()` and left on the stack as the expression's result, the binding is
inserted, and then the `Option` returned by `insert` is unwrapped — which
panics when the name had no previous binding. -/
def TS2G.visit_expr (g : TS2G) : Expr → TS2G × Option Err
  | .Number n => ({ g with stack := .f64 n :: g.stack }, none)
  | .Id id =>
    match lookupVar g.vars id with
    | some v => ({ g with stack := v :: g.stack }, none)
    | none => (g, some (.undefinedVariable id))
  | .PI => ({ g with stack := .f64 pi64 :: g.stack }, none)
  | .E => ({ g with stack := .f64 e64 :: g.stack }, none)
  | .Parenthesis e => g.visit_expr e
  | .Exponent l r =>
    andThen (g.visit_expr l) fun g1 =>
      andThen (g1.visit_expr r) fun g2 => binOpArm g2 Value.powf
  | .Multiply l r =>
    andThen (g.visit_expr l) fun g1 =>
      andThen (g1.visit_expr r) fun g2 => binOpArm g2 Value.mul
  | .Divide l r =>
    andThen (g.visit_expr l) fun g1 =>
      andThen (g1.visit_expr r) fun g2 => binOpArm g2 Value.div
  | .Add l r =>
    andThen (g.visit_expr l) fun g1 =>
      andThen (g1.visit_expr r) fun g2 => binOpArm g2 Value.add
  | .Sub l r =>
    andThen (g.visit_expr l) fun g1 =>
      andThen (g1.visit_expr r) fun g2 => binOpArm g2 Value.sub
  | .Eq id e =>
    andThen (g.visit_expr e) fun g1 =>
      match g1.stack with
      | [] => (g1, some .stackUnderflow)
      | v :: _ =>
        match insertVar g1.vars id v with
        | (some _, m) => ({ g1 with vars := m }, none)
        | (none, m) => ({ g1 with vars := m }, some (.assignUnbound id))

/-- `TS2G::visit_statement` (`main.rs` 460-476): `ExprStatement` evaluates and
discards, `Let` evaluates and binds (dropping `insert`'s returned previous
value, and ignoring the declared-kind annotation), `Print` evaluates and
appends the display form of the value as one line of output. -/
def TS2G.visit_statement (g : TS2G) : Statement → TS2G × Option Err
  | .ExprStatement e =>
    andThen (g.visit_expr e) fun g1 =>
      match g1.stack with
      | [] => (g1, some .stackUnderflow)
      | _ :: rest => ({ g1 with stack := rest }, none)
  | .Let id _t e =>
    andThen (g.visit_expr e) fun g1 =>
      match g1.stack with
      | [] => (g1, some .stackUnderflow)
      | v :: rest => ({ g1 with stack := rest, vars := (insertVar g1.vars id v).2 }, none)
  | .Print e =>
    andThen (g.visit_expr e) fun g1 =>
      match g1.stack with
      | [] => (g1, some .stackUnderflow)
      | v :: rest => ({ g1 with stack := rest, output := g1.output ++ [v.display] }, none)

/-- The statement loop of `main` (`main.rs` 579-581): execute the parsed
statements in order; the first panic aborts the remainder of the run. -/
def TS2G.runStmts (g : TS2G) : List Statement → TS2G × Option Err
  | [] => (g, none)
  | s :: rest =>
    match g.visit_statement s with
    | (g1, none) => g1.runStmts rest
    | (g1, some e) => (g1, some e)

/-- Modelled from the spec: the lalrpop grammar file (`ts2g.lalrpop`) that
parses the hardcoded program of `main` is not among the source files, so the
statement sequence it produces for the literal program
`let x:u64=1+1;print(x);x=x+10;print(x);` is written out here from the spec's
grammar description (sections 1 and 3). -/
def sampleProgram : List Statement :=
  [ .Let "x" "u64" (.Add (.Number 1) (.Number 1)),
    .Print (.Id "x"),
    .ExprStatement (.Eq "x" (.Add (.Id "x") (.Number 10))),
    .Print (.Id "x") ]

/-- The five binary operations, for stating claims about all of them at
once. -/
inductive BinOp
  | add | sub | mul | div | pow
deriving DecidableEq

/-- Dispatch a `BinOp` to the corresponding `Value` operation. -/
def applyBin : BinOp → Value → Value → Except Err Value
  | .add, a, b => a.add b
  | .sub, a, b => a.sub b
  | .mul, a, b => a.mul b
  | .div, a, b => a.div b
  | .pow, a, b => a.powf b

/-- `true` when an expression contains an `Id` node. -/
def Expr.hasId : Expr → Bool
  | .Number _ => false
  | .Id _ => true
  | .PI => false
  | .E => false
  | .Parenthesis e => e.hasId
  | .Exponent l r => l.hasId || r.hasId
  | .Multiply l r => l.hasId || r.hasId
  | .Divide l r => l.hasId || r.hasId
  | .Add l r => l.hasId || r.hasId
  | .Sub l r => l.hasId || r.hasId
  | .Eq _ e => e.hasId

/-- `true` when a statement contains an `Id` node. -/
def Statement.hasId : Statement → Bool
  | .ExprStatement e => e.hasId
  | .Let _ _ e => e.hasId
  | .Print e => e.hasId

/-- A program whose AST contains no identifier node. -/
def noIdentifier (p : List Statement) : Bool := p.all fun s => !s.hasId

/-! ## Helper lemmas -/

theorem insertVar_fst (m : List (String × Value)) (k : String) (v : Value) :
    (insertVar m k v).1 = lookupVar m k := by
  induction m with
  | nil => rfl
  | cons p rest ih =>
    obtain ⟨k', v'⟩ := p
    by_cases h : k' = k <;> simp [insertVar, lookupVar, h, ih]

theorem lookupVar_insertVar_self (m : List (String × Value)) (k : String) (v : Value) :
    lookupVar (insertVar m k v).2 k = some v := by
  induction m with
  | nil => simp [insertVar, lookupVar]
  | cons p rest ih =>
    obtain ⟨k', v'⟩ := p
    by_cases h : k' = k <;> simp [insertVar, lookupVar, h, ih]

theorem applyBin_no_underflow (op : BinOp) (a b : Value) :
    applyBin op a b ≠ Except.error Err.stackUnderflow := by
  cases op
  case div =>
    cases a <;> cases b <;>
      (simp only [applyBin, Value.div]; first | (split_ifs <;> simp) | simp)
  all_goals
    cases a <;> cases b <;>
      simp [applyBin, Value.add, Value.sub, Value.mul, Value.powf]

/-- Shape invariant for one expression: a normal return pushes exactly one
value on top of the unchanged stack, and the evaluation never panics from a
stack pop. -/
def exprShapeOk (e : Expr) : Prop :=
  ∀ g : TS2G,
    ((g.visit_expr e).2 = none → ∃ v, (g.visit_expr e).1.stack = v :: g.stack)
    ∧ (g.visit_expr e).2 ≠ some Err.stackUnderflow

theorem binArm_shape (l r : Expr) (op : Value → Value → Except Err Value)
    (hop : ∀ a b, op a b ≠ Except.error Err.stackUnderflow)
    (ihl : exprShapeOk l) (ihr : exprShapeOk r) (g : TS2G) :
    (((andThen (g.visit_expr l) fun g1 =>
        andThen (g1.visit_expr r) fun g2 => binOpArm g2 op)).2 = none →
      ∃ v, ((andThen (g.visit_expr l) fun g1 =>
        andThen (g1.visit_expr r) fun g2 => binOpArm g2 op)).1.stack = v :: g.stack)
    ∧ ((andThen (g.visit_expr l) fun g1 =>
        andThen (g1.visit_expr r) fun g2 => binOpArm g2 op)).2
        ≠ some Err.stackUnderflow := by
  rcases hl : g.visit_expr l with ⟨g1, r1⟩
  rcases r1 with _ | e1
  · have h1 := ihl g
    rw [hl] at h1
    simp at h1
    obtain ⟨v1, hs1⟩ := h1
    rcases hr : g1.visit_expr r with ⟨g2, r2⟩
    rcases r2 with _ | e2
    · have h2 := ihr g1
      rw [hr] at h2
      simp at h2
      obtain ⟨v2, hs2⟩ := h2
      rcases hop2 : op v1 v2 with e3 | c
      · have h3 := hop v1 v2
        rw [hop2] at h3
        simp only [ne_eq, Except.error.injEq] at h3
        simp [andThen, hl, hr, binOpArm, hs2, hs1, hop2, h3]
      · simp [andThen, hl, hr, binOpArm, hs2, hs1, hop2]
    · have h2 := ihr g1
      rw [hr] at h2
      simp at h2
      simp [andThen, hl, hr, h2]
  · have h1 := ihl g
    rw [hl] at h1
    simp at h1
    simp [andThen, hl, h1]

theorem visit_expr_shape : ∀ e : Expr, exprShapeOk e := by
  intro e
  induction e with
  | Number n => intro g; simp [TS2G.visit_expr]
  | Id i =>
    intro g
    rcases h : lookupVar g.vars i with _ | v <;> simp [TS2G.visit_expr, h]
  | PI => intro g; simp [TS2G.visit_expr]
  | E => intro g; simp [TS2G.visit_expr]
  | Parenthesis e ih => exact ih
  | Exponent l r ihl ihr =>
    exact binArm_shape l r Value.powf (applyBin_no_underflow .pow) ihl ihr
  | Multiply l r ihl ihr =>
    exact binArm_shape l r Value.mul (applyBin_no_underflow .mul) ihl ihr
  | Divide l r ihl ihr =>
    exact binArm_shape l r Value.div (applyBin_no_underflow .div) ihl ihr
  | Add l r ihl ihr =>
    exact binArm_shape l r Value.add (applyBin_no_underflow .add) ihl ihr
  | Sub l r ihl ihr =>
    exact binArm_shape l r Value.sub (applyBin_no_underflow .sub) ihl ihr
  | Eq i e ih =>
    intro g
    rcases he : g.visit_expr e with ⟨g1, r1⟩
    rcases r1 with _ | e1
    · have h1 := ih g
      rw [he] at h1
      simp at h1
      obtain ⟨v1, hs1⟩ := h1
      rcases hins : insertVar g1.vars i v1 with ⟨old, m⟩
      rcases old with _ | ov <;>
        simp [TS2G.visit_expr, andThen, he, hs1, hins]
    · have h1 := ih g
      rw [he] at h1
      simp at h1
      simp [TS2G.visit_expr, andThen, he, h1]

theorem visit_statement_shape (s : Statement) (g : TS2G) :
    ((g.visit_statement s).2 = none → (g.visit_statement s).1.stack = g.stack)
    ∧ (g.visit_statement s).2 ≠ some Err.stackUnderflow := by
  cases s with
  | ExprStatement e =>
    rcases he : g.visit_expr e with ⟨g1, r1⟩
    have h1 := visit_expr_shape e g
    rw [he] at h1
    rcases r1 with _ | e1
    · simp at h1
      obtain ⟨v1, hs1⟩ := h1
      simp [TS2G.visit_statement, andThen, he, hs1]
    · simp at h1
      simp [TS2G.visit_statement, andThen, he, h1]
  | Let i t e =>
    rcases he : g.visit_expr e with ⟨g1, r1⟩
    have h1 := visit_expr_shape e g
    rw [he] at h1
    rcases r1 with _ | e1
    · simp at h1
      obtain ⟨v1, hs1⟩ := h1
      simp [TS2G.visit_statement, andThen, he, hs1]
    · simp at h1
      simp [TS2G.visit_statement, andThen, he, h1]
  | Print e =>
    rcases he : g.visit_expr e with ⟨g1, r1⟩
    have h1 := visit_expr_shape e g
    rw [he] at h1
    rcases r1 with _ | e1
    · simp at h1
      obtain ⟨v1, hs1⟩ := h1
      simp [TS2G.visit_statement, andThen, he, hs1]
    · simp at h1
      simp [TS2G.visit_statement, andThen, he, h1]

/-! ## Claims -/

/-- C10: every call to `visit_expr` that returns normally pushes exactly one
value onto the evaluation stack, leaving all values below it unchanged; every
call to `visit_statement` that returns normally leaves the stack exactly as it
found it; and no evaluation ever panics from a stack `pop()`/`last()` unwrap
(in particular, from the empty stack the stack is empty again after each
executed statement). -/
theorem c10_stack_discipline :
    (∀ (e : Expr) (g g' : TS2G), g.visit_expr e = (g', none) →
      ∃ v, g'.stack = v :: g.stack)
    ∧ (∀ (e : Expr) (g : TS2G), (g.visit_expr e).2 ≠ some Err.stackUnderflow)
    ∧ (∀ (s : Statement) (g g' : TS2G), g.visit_statement s = (g', none) →
      g'.stack = g.stack)
    ∧ (∀ (s : Statement) (g : TS2G), (g.visit_statement s).2 ≠ some Err.stackUnderflow) := by
  refine ⟨fun e g g' h => ?_, fun e g => (visit_expr_shape e g).2,
    fun s g g' h => ?_, fun s g => (visit_statement_shape s g).2⟩
  · have h1 := visit_expr_shape e g
    rw [h] at h1
    exact h1.1 rfl
  · have h1 := visit_statement_shape s g
    rw [h] at h1
    exact h1.1 rfl

/-- Witness for C10 at a concrete input: evaluating the literal `0` from the
initial state pushes exactly one value onto the empty stack. -/
theorem c10_stack_discipline_witness :
    ∃ v, (⟨[], [Value.f64 0], []⟩ : TS2G).stack = v :: TS2G.init.stack :=
  c10_stack_discipline.1 (Expr.Number 0) TS2G.init ⟨[], [Value.f64 0], []⟩ rfl

/-- C6: `Parenthesis(e)` evaluates exactly like `e` — same value, same
environment updates, same output — and in particular printing `(e)` equals
printing `e`.  Both equalities hold definitionally: the `Parenthesis` arm of
`visit_expr` is a bare recursive call. -/
theorem c6_parenthesis_transparent (g : TS2G) (e : Expr) :
    g.visit_expr (Expr.Parenthesis e) = g.visit_expr e
    ∧ g.visit_statement (Statement.Print (Expr.Parenthesis e))
        = g.visit_statement (Statement.Print e) :=
  ⟨rfl, rfl⟩

/-- Witness for C6 at a concrete input. -/
theorem c6_parenthesis_transparent_witness :
    TS2G.init.visit_expr (Expr.Parenthesis (Expr.Number 4))
      = TS2G.init.visit_expr (Expr.Number 4) :=
  (c6_parenthesis_transparent TS2G.init (Expr.Number 4)).1

/-- C9: evaluation is a deterministic function of the AST — for a program
with no identifier node, two runs from a fresh state produce identical
output.  In this embedding the evaluator is a pure function, so determinism
holds for every program; the identifier-free hypothesis of the claim is kept
as stated. -/
theorem c9_determinism (p : List Statement) (_h : noIdentifier p = true)
    (g1 g2 : TS2G) (h1 : g1 = TS2G.init) (h2 : g2 = TS2G.init) :
    g1.runStmts p = g2.runStmts p := by
  subst h1
  subst h2
  rfl

/-- Witness for C9 at a concrete identifier-free program. -/
theorem c9_determinism_witness :
    noIdentifier [Statement.Print (Expr.Number 1)] = true
    ∧ TS2G.init.runStmts [Statement.Print (Expr.Number 1)]
        = TS2G.init.runStmts [Statement.Print (Expr.Number 1)] :=
  ⟨by decide, c9_determinism _ (by decide) _ _ rfl rfl⟩

/-- C4: evaluating an identifier that was never bound fails fatally with
`UndefinedVariable`, aborting the remaining statement sequence (the run's
result, and hence its output, does not depend on the statements after the
failing one); lookup never yields a default value. -/
theorem c4_undefined_variable (name : String) (g : TS2G)
    (h : lookupVar g.vars name = none) :
    g.visit_expr (Expr.Id name) = (g, some (Err.undefinedVariable name))
    ∧ ∀ rest : List Statement,
        g.runStmts (Statement.ExprStatement (Expr.Id name) :: rest)
          = (g, some (Err.undefinedVariable name)) := by
  constructor
  · simp [TS2G.visit_expr, h]
  · intro rest
    simp [TS2G.runStmts, TS2G.visit_statement, TS2G.visit_expr, andThen, h]

/-- Witness for C4: the name `y` is unbound in the initial state, so
referencing it aborts the run immediately, executing nothing further. -/
theorem c4_undefined_variable_witness :
    TS2G.init.visit_expr (Expr.Id "y") = (TS2G.init, some (Err.undefinedVariable "y"))
    ∧ TS2G.init.runStmts
        [Statement.ExprStatement (Expr.Id "y"), Statement.Print (Expr.Number 1)]
        = (TS2G.init, some (Err.undefinedVariable "y")) :=
  ⟨(c4_undefined_variable "y" TS2G.init rfl).1,
   (c4_undefined_variable "y" TS2G.init rfl).2 [Statement.Print (Expr.Number 1)]⟩

/-- C8: `Let(name, declaredKind, e)` evaluates `e` and binds the resulting
value under `name`, with whatever kind it evaluated to; the declared-kind
annotation has no observable effect at all (two `let`s differing only in the
annotation produce identical results), and the bound value is exactly the
evaluated value, never checked against or coerced to the annotation. -/
theorem c8_let_ignores_declared_kind (g : TS2G) (name t1 t2 : String) (e : Expr) :
    g.visit_statement (Statement.Let name t1 e)
      = g.visit_statement (Statement.Let name t2 e)
    ∧ ∀ (g1 : TS2G) (v : Value) (s : List Value),
        g.visit_expr e = (g1, none) → g1.stack = v :: s →
        g.visit_statement (Statement.Let name t1 e)
          = ({ g1 with stack := s, vars := (insertVar g1.vars name v).2 }, none)
        ∧ lookupVar (insertVar g1.vars name v).2 name = some v := by
  refine ⟨rfl, ?_⟩
  intro g1 v s he hs
  refine ⟨?_, lookupVar_insertVar_self _ _ _⟩
  simp [TS2G.visit_statement, andThen, he, hs]

/-- Witness for C8: `let x:u64 = 7` behaves exactly like `let x:f32 = 7` and
binds `x` to the `F64` value `7` that the literal evaluated to, ignoring the
annotation. -/
theorem c8_let_ignores_declared_kind_witness :
    TS2G.init.visit_statement (Statement.Let "x" "u64" (Expr.Number 7))
      = TS2G.init.visit_statement (Statement.Let "x" "f32" (Expr.Number 7))
    ∧ TS2G.init.visit_statement (Statement.Let "x" "u64" (Expr.Number 7))
        = (⟨[("x", Value.f64 7)], [], []⟩, none)
    ∧ lookupVar [("x", Value.f64 7)] "x" = some (Value.f64 7) :=
  ⟨(c8_let_ignores_declared_kind TS2G.init "x" "u64" "f32" (Expr.Number 7)).1,
   ((c8_let_ignores_declared_kind TS2G.init "x" "u64" "f32" (Expr.Number 7)).2
      ⟨[], [Value.f64 7], []⟩ (Value.f64 7) [] rfl rfl).1,
   ((c8_let_ignores_declared_kind TS2G.init "x" "u64" "f32" (Expr.Number 7)).2
      ⟨[], [Value.f64 7], []⟩ (Value.f64 7) [] rfl rfl).2⟩

/-- C2 counterexample: the claim says assignment, like `define`, never fails;
but assigning to the never-bound name `x` from the initial state fails with
the `assignUnbound` panic (the `unwrap()` of the `None` that
`HashMap::insert` returns for a fresh key). -/
theorem c2_counterexample :
    (TS2G.init.visit_expr (Expr.Eq "x" (Expr.Number 5))).2
      = some (Err.assignUnbound "x") := rfl

/-- C2 (amended): `Assignment(name, e)` evaluates `e`, writes the value into
the environment, and yields it as the expression's result (the value stays on
the stack); but unlike `define` it is not error-free: it returns normally only
when `name` was previously bound (the overwrite case), and when `name` was
never bound the new binding is still inserted but the evaluation then fails
fatally with the `assignUnbound` panic. -/
theorem c2_assignment_amended (g : TS2G) (name : String) (e : Expr)
    (g1 : TS2G) (v : Value) (s : List Value)
    (he : g.visit_expr e = (g1, none)) (hs : g1.stack = v :: s) :
    (∀ old, lookupVar g1.vars name = some old →
      g.visit_expr (Expr.Eq name e)
        = ({ g1 with vars := (insertVar g1.vars name v).2 }, none))
    ∧ (lookupVar g1.vars name = none →
      g.visit_expr (Expr.Eq name e)
        = ({ g1 with vars := (insertVar g1.vars name v).2 },
            some (Err.assignUnbound name)))
    ∧ lookupVar (insertVar g1.vars name v).2 name = some v := by
  refine ⟨?_, ?_, lookupVar_insertVar_self _ _ _⟩
  · intro old hold
    have hfst : (insertVar g1.vars name v).1 = some old := by
      rw [insertVar_fst]
      exact hold
    rcases hins : insertVar g1.vars name v with ⟨o, m⟩
    rw [hins] at hfst
    simp at hfst
    subst hfst
    simp [TS2G.visit_expr, andThen, he, hs, hins]
  · intro hnone
    have hfst : (insertVar g1.vars name v).1 = none := by
      rw [insertVar_fst]
      exact hnone
    rcases hins : insertVar g1.vars name v with ⟨o, m⟩
    rw [hins] at hfst
    simp at hfst
    subst hfst
    simp [TS2G.visit_expr, andThen, he, hs, hins]

/-- Witness for C2 (amended), overwrite case: with `x` already bound,
`x = 5` succeeds, overwrites the binding, and leaves the value `5` on the
stack as the expression's result. -/
theorem c2_assignment_amended_witness :
    (⟨[("x", Value.f64 0)], [], []⟩ : TS2G).visit_expr (Expr.Eq "x" (Expr.Number 5))
      = (⟨[("x", Value.f64 5)], [Value.f64 5], []⟩, none) :=
  (c2_assignment_amended ⟨[("x", Value.f64 0)], [], []⟩ "x" (Expr.Number 5)
      ⟨[("x", Value.f64 0)], [Value.f64 5], []⟩ (Value.f64 5) [] rfl rfl).1
    (Value.f64 0) rfl

/-- C3: each of the five binary operations fails fatally with a
`typeMismatch` carrying the two kind tags whenever the operands' tags differ,
and the panic aborts the remaining statement sequence (the run's result, and
hence its output, no longer depends on the statements after the failing one);
when the tags agree the operation returns normally — except for the
kind-specific division panics — and the result keeps the common kind. -/
theorem c3_binop_kind_discipline :
    (∀ (op : BinOp) (a b : Value), a.numType ≠ b.numType →
      applyBin op a b = Except.error (Err.typeMismatch a.numType b.numType))
    ∧ (∀ (op : BinOp) (a b : Value), a.numType = b.numType → op ≠ BinOp.div →
      ∃ c, applyBin op a b = Except.ok c ∧ c.numType = a.numType)
    ∧ (∀ a b : Value, a.numType = b.numType →
      (∃ c, applyBin BinOp.div a b = Except.ok c ∧ c.numType = a.numType)
      ∨ applyBin BinOp.div a b = Except.error Err.divByZero
      ∨ applyBin BinOp.div a b = Except.error Err.divOverflow)
    ∧ (∀ (s : Statement) (rest : List Statement) (g g' : TS2G) (t u : NumType),
      g.visit_statement s = (g', some (Err.typeMismatch t u)) →
      g.runStmts (s :: rest) = (g', some (Err.typeMismatch t u))) := by
  refine ⟨?_, ?_, ?_, ?_⟩
  · intro op a b h
    cases op <;> cases a <;> cases b <;> first | exact absurd rfl h | rfl
  · intro op a b h hop
    cases op
    case div => exact absurd rfl hop
    all_goals
      cases a <;> cases b <;>
        first
          | exact ⟨_, rfl, rfl⟩
          | simp [Value.numType] at h
  · intro a b h
    cases a <;> cases b <;>
      first
        | (simp only [applyBin, Value.div]
           first
             | (split_ifs <;>
                 first
                   | exact Or.inr (Or.inl rfl)
                   | exact Or.inr (Or.inr rfl)
                   | exact Or.inl ⟨_, rfl, rfl⟩)
             | exact Or.inl ⟨_, rfl, rfl⟩)
        | simp [Value.numType] at h
  · intro s rest g g' t u h
    simp [TS2G.runStmts, h]

/-- Witness for C3: adding a `U8` value to an `F64` value fails with the
`typeMismatch` panic carrying both tags. -/
theorem c3_binop_kind_discipline_witness :
    applyBin BinOp.add (Value.u8 1) (Value.f64 2)
      = Except.error (Err.typeMismatch NumType.U8 NumType.F64) :=
  c3_binop_kind_discipline.1 BinOp.add (Value.u8 1) (Value.f64 2) (by decide)

/-- C5 counterexample: from the initial (empty) environment, evaluating the
claim's example statement `print((x = 1) + (x = 2))` does not leave `x` bound
to `2`: the first inner assignment already panics (`x` was never bound), the
statement aborts with `x` bound to `1`, and nothing is printed. -/
theorem c5_counterexample :
    lookupVar (TS2G.init.runStmts
        [Statement.Print (Expr.Add (Expr.Eq "x" (Expr.Number 1))
          (Expr.Eq "x" (Expr.Number 2)))]).1.vars "x"
      ≠ some (Value.f64 2)
    ∧ (TS2G.init.runStmts
        [Statement.Print (Expr.Add (Expr.Eq "x" (Expr.Number 1))
          (Expr.Eq "x" (Expr.Number 2)))]).2
      = some (Err.assignUnbound "x") := by
  constructor
  · decide
  · rfl

/-- C5 (amended): binary nodes evaluate the left operand completely, side
effects included, before the right operand; provided `x` is already bound
beforehand, `print((x = 1) + (x = 2))` returns normally, prints `3`, and
leaves `x` bound to `2` — the right operand's assignment is evaluated after
the left's and overwrites it.  (From a fresh environment the example instead
aborts at the first inner assignment; see the counterexample.) -/
theorem c5_left_then_right (g : TS2G) (v : Value)
    (h : lookupVar g.vars "x" = some v) :
    ∃ m, g.runStmts [Statement.Print (Expr.Add (Expr.Eq "x" (Expr.Number 1))
        (Expr.Eq "x" (Expr.Number 2)))]
      = (⟨m, g.stack, g.output ++ ["3"]⟩, none)
      ∧ lookupVar m "x" = some (Value.f64 2) := by
  have h1 : (insertVar g.vars "x" (Value.f64 1)).1 = some v := by
    rw [insertVar_fst]
    exact h
  rcases hi1 : insertVar g.vars "x" (Value.f64 1) with ⟨o1, m1⟩
  rw [hi1] at h1
  simp at h1
  subst h1
  have h2 : (insertVar m1 "x" (Value.f64 2)).1 = some (Value.f64 1) := by
    rw [insertVar_fst]
    have h3 := lookupVar_insertVar_self g.vars "x" (Value.f64 1)
    rw [hi1] at h3
    exact h3
  rcases hi2 : insertVar m1 "x" (Value.f64 2) with ⟨o2, m2⟩
  rw [hi2] at h2
  simp at h2
  subst h2
  have hadd : Value.add (Value.f64 1) (Value.f64 2) = Except.ok (Value.f64 3) := by
    simp only [Value.add, Except.ok.injEq, Value.f64.injEq]
    norm_num
  have hd : (Value.f64 3).display = "3" := by decide
  refine ⟨m2, ?_, ?_⟩
  · simp [TS2G.runStmts, TS2G.visit_statement, TS2G.visit_expr, andThen, binOpArm,
      hi1, hi2, hadd, hd]
  · have h4 := lookupVar_insertVar_self m1 "x" (Value.f64 2)
    rw [hi2] at h4
    exact h4

/-- Witness for C5 (amended) at a concrete starting state with `x` bound. -/
theorem c5_left_then_right_witness :
    ∃ m, (⟨[("x", Value.f64 0)], [], []⟩ : TS2G).runStmts
        [Statement.Print (Expr.Add (Expr.Eq "x" (Expr.Number 1))
          (Expr.Eq "x" (Expr.Number 2)))]
      = (⟨m, [], ["3"]⟩, none)
      ∧ lookupVar m "x" = some (Value.f64 2) :=
  c5_left_then_right ⟨[("x", Value.f64 0)], [], []⟩ (Value.f64 0) rfl

/-- C1: the statement sequence parsed from the literal program
`let x:u64=1+1; print(x); x=x+10; print(x);`, evaluated from the fresh empty
state, returns normally and writes exactly the two lines `2` then `12` to the
output sink. -/
theorem c1_sample_program_output :
    (TS2G.init.runStmts sampleProgram).2 = none
    ∧ (TS2G.init.runStmts sampleProgram).1.output = ["2", "12"] := by
  have hadd1 : Value.add (Value.f64 1) (Value.f64 1) = Except.ok (Value.f64 2) := by
    simp only [Value.add, Except.ok.injEq, Value.f64.injEq]
    norm_num
  have hadd2 : Value.add (Value.f64 2) (Value.f64 10) = Except.ok (Value.f64 12) := by
    simp only [Value.add, Except.ok.injEq, Value.f64.injEq]
    norm_num
  have hd2 : (Value.f64 2).display = "2" := by decide
  have hd12 : (Value.f64 12).display = "12" := by decide
  simp [sampleProgram, TS2G.runStmts, TS2G.visit_statement, TS2G.visit_expr,
    TS2G.init, andThen, binOpArm, lookupVar, insertVar, hadd1, hadd2, hd2, hd12]
